import Mathlib

/-!
Shallow embedding of the ai-vitals monitoring core (src/ai-vitals/src/lib.rs):
the probe-result data model, the Monitor orchestrator, the Cronitor exporter
(ping URL construction, monitor-definition payload derivation, the ping side
effects) and the two probe implementations.

Modelling conventions:
* Rust machine integers are Nat, with an explicit `% 2 ^ 64` where a u64
  multiplication can wrap (release-mode semantics).
* Fallible constructors return `Except String`; the reqwest client build,
  which is the only failure source of the constructors, is abstracted into a
  `buildOk` flag.
* Network and subprocess effects are passed in explicitly as outcome values;
  functions return the calls they issue and the log lines they emit, so the
  control flow of the Rust code is preserved while staying pure.
-/

namespace AiVitals

/-- Result of an LLM endpoint probe (`enum ProbeResult`). -/
inductive ProbeResult where
  | Success : ProbeResult
  | Error : Nat → ProbeResult
  | Timeout : ProbeResult
  | NetworkError : String → ProbeResult
deriving DecidableEq, Repr

/-- State of an export ping (`enum PingState`). -/
inductive PingState where
  | Run : PingState
  | Complete : PingState
  | Fail : PingState
deriving DecidableEq, Repr

/-- `PingState::as_str`. -/
def PingState.as_str : PingState → String
  | .Run => "run"
  | .Complete => "complete"
  | .Fail => "fail"

/-- Type of endpoint to probe (`enum probes::Type`). -/
inductive ProbeType where
  | OpenAIChatCompletion : ProbeType
  | OpenAIEmbedding : ProbeType
  | Newman : ProbeType
deriving DecidableEq, Repr

/-- The monitoring tool's configuration (`struct cli::Config`). -/
structure Config where
  cronitor_base_url : String
  cronitor_api_key : Option String
  monitor_name : String
  server_url : String
  endpoint_type : ProbeType
  model_name : String
  env : String
  timeout_seconds : Nat
  min_success_freq : Option Nat
  schedule : Option String
  realert_interval : Option Nat
  consecutive_failures : Option Nat
  consecutive_missing : Option Nat
  monitor_group : Option String
  collection_path : String
  environment_path : Option String
  request_delay_milliseconds : Option Nat
deriving DecidableEq, Repr

/-- Decimal digit character. -/
def digitChar (n : Nat) : Char := Char.ofNat (48 + n)

/-- Decimal digits of a natural number, most significant first: the output of
Rust's Display implementation for unsigned integers. -/
def natDigits (n : Nat) : List Char :=
  if _h : n < 10 then [digitChar n]
  else natDigits (n / 10) ++ [digitChar (n % 10)]
decreasing_by exact Nat.div_lt_self (by omega) (by omega)

/-- Decimal representation of a natural number as a string. -/
def natRepr (n : Nat) : String := ⟨natDigits n⟩

/-- Decimal representation of an integer (Rust Display for i64). -/
def intRepr (i : Int) : String :=
  if i < 0 then "-" ++ natRepr i.natAbs else natRepr i.natAbs

/-- One invocation of `Export::ping`: the arguments the orchestrator passes to
its exporter. -/
structure PingCall where
  state : PingState
  status_code : Nat
  message : Option String
deriving DecidableEq, Repr

/-- `Monitor::run`, with the bound probe's result passed in explicitly (the
probe trait object is invoked exactly once).  Returns the sequence of exporter
pings the orchestrator emits, in order, and the process exit code. -/
def Monitor.run (probeResult : ProbeResult) : List PingCall × Int :=
  let startPing : PingCall := ⟨.Run, 0, none⟩
  match probeResult with
  | .Success => ([startPing, ⟨.Complete, 0, none⟩], 0)
  | .Error status_code => ([startPing, ⟨.Fail, status_code, none⟩], 1)
  | .Timeout => ([startPing, ⟨.Fail, 124, some "Request timeout"⟩], 124)
  | .NetworkError e => ([startPing, ⟨.Fail, 1, some ("Network error: " ++ e)⟩], 1)

/-- UTF-8 bytes of a character, by code-point arithmetic. -/
def charUtf8 (c : Char) : List Nat :=
  let n := c.toNat
  if n < 0x80 then [n]
  else if n < 0x800 then [0xC0 + n / 64, 0x80 + n % 64]
  else if n < 0x10000 then [0xE0 + n / 4096, 0x80 + n / 64 % 64, 0x80 + n % 64]
  else [0xF0 + n / 262144, 0x80 + n / 4096 % 64, 0x80 + n / 64 % 64, 0x80 + n % 64]

/-- Bytes of a string (a Rust str is a UTF-8 byte sequence). -/
def strBytes (s : String) : List Nat := (s.data.map charUtf8).flatten

/-- Bytes the urlencoding crate leaves unescaped: ASCII alphanumerics and
the four unreserved punctuation bytes `-`, `.`, `_`, `~`. -/
def safeByte (b : Nat) : Bool :=
  (0x41 ≤ b && b ≤ 0x5A) || (0x61 ≤ b && b ≤ 0x7A) || (0x30 ≤ b && b ≤ 0x39) ||
  b == 0x2D || b == 0x2E || b == 0x5F || b == 0x7E

/-- Uppercase hexadecimal digit character. -/
def hexUpper (n : Nat) : Char :=
  if n < 10 then Char.ofNat (48 + n) else Char.ofNat (55 + n)

/-- Percent-encoding of one byte, as the urlencoding crate produces it. -/
def encByte (b : Nat) : List Char :=
  if safeByte b then [Char.ofNat b]
  else ['%', hexUpper (b / 16), hexUpper (b % 16)]

/-- `urlencoding::encode`: percent-encode every byte of the UTF-8 encoding of
the string except the unreserved ones. -/
def urlencode (s : String) : String := ⟨((strBytes s).map encByte).flatten⟩

/-- Cronitor exporter state (`struct exporters::Cronitor`): the configuration,
the local hostname and the series identifier, all set at construction and
immutable afterwards (the struct has no interior mutability and no method takes
it by mutable reference). -/
structure Cronitor where
  config : Config
  host : String
  series_id : String
deriving DecidableEq, Repr

/-- `Cronitor::new` (the `Export::new` impl).  The reqwest client build, the
only fallible step, is abstracted into `buildOk`; the wall-clock timestamp,
process id and hostname lookup result are passed in explicitly. -/
def Cronitor.new (buildOk : Bool) (config : Config) (ts : Int) (pid : Nat)
    (hostRes : Option String) : Except String Cronitor :=
  if buildOk then
    .ok { config := config
          host := hostRes.getD ""
          series_id := intRepr ts ++ "-" ++ natRepr pid }
  else .error "building reqwest client"

/-- `Cronitor::build_ping_url`. -/
def Cronitor.build_ping_url (c : Cronitor) (state : PingState) (status_code : Nat)
    (message : Option String) : String :=
  let url := c.config.cronitor_base_url ++ "/" ++ c.config.monitor_name ++
    "?state=" ++ state.as_str ++ "&series=" ++ c.series_id ++
    "&status_code=" ++ natRepr status_code ++ "&env=" ++ c.config.env ++
    "&host=" ++ c.host
  match message with
  | some msg => url ++ "&message=" ++ urlencode msg
  | none => url

/-- JSON values, the fragment serde_json is used for here. -/
inductive Json where
  | str : String → Json
  | num : Int → Json
  | arr : List Json → Json
  | obj : List (String × Json) → Json
deriving Repr

/-- `Cronitor::get_monitor_update_payload`: derives the monitor-definition
document from the configuration.  Map insertion order is kept as the source's
insertion order; the keys inserted are pairwise distinct, so key lookup is
unaffected by serde_json's map representation. -/
def Cronitor.get_monitor_update_payload (c : Cronitor) : Json :=
  let monitor : List (String × Json) :=
    [("type", .str "job"), ("key", .str c.config.monitor_name)]
    ++ (match c.config.consecutive_failures with
        | some consecutive_failures => [("failure_tolerance", .num consecutive_failures)]
        | none => [])
    ++ (match c.config.schedule with
        | some schedule => [("schedule", .str schedule)]
        | none => [])
    ++ (match c.config.realert_interval with
        | some realert_interval => [("realert_interval", .num realert_interval)]
        | none => [])
    ++ (match c.config.consecutive_missing, c.config.schedule with
        | some consecutive_missing, some _ => [("schedule_tolerance", .num consecutive_missing)]
        | _, _ => [])
    ++ (match c.config.monitor_group with
        | some group => [("group", .str group)]
        | none => [])
  let assertions : List String :=
    ["metric.duration < " ++ natRepr (c.config.timeout_seconds * 2 % 2 ^ 64) ++ "s"]
    ++ (match c.config.min_success_freq with
        | some min_success_freq => ["job.completes < " ++ natRepr min_success_freq ++ " minute"]
        | none => [])
  .obj [("monitors", .arr [.obj (monitor ++ [("assertions", .arr (assertions.map .str))])])]

/-- Outcome of one outbound HTTP request, as reqwest reports it: a response
with its status and body, or a request error with its `is_timeout()` flag and
display text. -/
inductive HttpOutcome where
  | response : Nat → String → HttpOutcome
  | reqError : Bool → String → HttpOutcome
deriving DecidableEq, Repr

/-- `StatusCode::is_success`: the 2xx range. -/
def statusIsSuccess (status : Nat) : Bool := 200 ≤ status && status < 300

/-- One outbound HTTP request issued by the exporter: a GET of a URL, or an
authenticated PUT of a JSON body (basic-auth user = the API key). -/
inductive HttpCall where
  | get : String → HttpCall
  | put : String → String → Json → HttpCall
deriving Repr

/-- `Cronitor::ping` (the `Export::ping` impl).  The outcomes of the GET ping
and of the optional monitor-upsert PUT are passed in.  Returns the list of
HTTP calls issued, in order, and the log lines emitted; the Rust counterpart
returns `()`, so every branch falls through and no failure can propagate to
the caller. -/
def Cronitor.ping (c : Cronitor) (state : PingState) (status_code : Nat)
    (message : Option String) (pingOut upsertOut : HttpOutcome) :
    List HttpCall × List String :=
  let url := c.build_ping_url state status_code message
  let pingLog : List String :=
    match pingOut with
    | .response status body =>
      if statusIsSuccess status then ["Cronitor ping OK"]
      else ["Cronitor ping non-2xx " ++ natRepr status ++ ": " ++ body]
    | .reqError _ e => ["Failed to send ping to Cronitor: " ++ e]
  if state = PingState.Run then
    match c.config.cronitor_api_key with
    | none => ([.get url], pingLog ++ ["No api key, skipping monitor enrichment"])
    | some api_key =>
      let upsertLog : List String :=
        match upsertOut with
        | .response status body =>
          if statusIsSuccess status then ["Monitor enriched successful"]
          else ["Monitor enrichment failed " ++ natRepr status ++ ": " ++ body]
        | .reqError _ e => ["Failed to enrich Cronitor monitor: " ++ e]
      ([.get url, .put "https://cronitor.io/api/monitors" api_key c.get_monitor_update_payload],
       pingLog ++ upsertLog)
  else ([.get url], pingLog)

/-- `Monitor::run` specialised to the Cronitor exporter: the same control flow
as `Monitor.run`, with the HTTP outcomes of the run ping, the monitor upsert
and the terminal ping supplied explicitly.  Returns the issued HTTP calls, the
log lines and the process exit code. -/
def Monitor.runCronitor (c : Cronitor) (probeResult : ProbeResult)
    (runOut upsertOut termOut : HttpOutcome) : List HttpCall × List String × Int :=
  let startEff := c.ping .Run 0 none runOut upsertOut
  let termEff : List HttpCall × List String × Int :=
    match probeResult with
    | .Success =>
      let e := c.ping .Complete 0 none termOut upsertOut; (e.1, e.2, 0)
    | .Error status_code =>
      let e := c.ping .Fail status_code none termOut upsertOut; (e.1, e.2, 1)
    | .Timeout =>
      let e := c.ping .Fail 124 (some "Request timeout") termOut upsertOut; (e.1, e.2, 124)
    | .NetworkError err =>
      let e := c.ping .Fail 1 (some ("Network error: " ++ err)) termOut upsertOut; (e.1, e.2, 1)
  (startEff.1 ++ termEff.1, startEff.2 ++ termEff.2.1, termEff.2.2)

/-- HTTP probe against an OpenAI-style endpoint (`struct probes::OpenAI`). -/
structure OpenAI where
  config : Config
deriving DecidableEq, Repr

/-- `OpenAI::new` (the `Probe::new` impl): builds the reqwest client
(abstracted into `buildOk`) and stores the configuration.  Note that it never
inspects `endpoint_type`. -/
def OpenAI.new (buildOk : Bool) (config : Config) : Except String OpenAI :=
  if buildOk then .ok { config := config } else .error "building reqwest client"

/-- `OpenAI::build_endpoint_url`; `none` models the
`panic!("Unsupported endpoint type")` arm. -/
def OpenAI.build_endpoint_url (p : OpenAI) : Option String :=
  match p.config.endpoint_type with
  | .OpenAIChatCompletion => some (p.config.server_url ++ "/v1/chat/completions")
  | .OpenAIEmbedding => some (p.config.server_url ++ "/v1/embeddings")
  | .Newman => none

/-- `OpenAI::build_payload`; `none` models the panic arm. -/
def OpenAI.build_payload (p : OpenAI) : Option Json :=
  match p.config.endpoint_type with
  | .OpenAIChatCompletion => some (.obj
      [("model", .str p.config.model_name),
       ("messages", .arr [.obj [("role", .str "user"), ("content", .str "test")]]),
       ("max_tokens", .num 1),
       ("priority", .num (-100))])
  | .OpenAIEmbedding => some (.obj
      [("model", .str p.config.model_name),
       ("input", .str "test"),
       ("priority", .num (-100))])
  | .Newman => none

/-- `OpenAI::probe`, with the transport outcome of the POST passed in. -/
def OpenAI.probe (_p : OpenAI) (out : HttpOutcome) : ProbeResult :=
  match out with
  | .response status _body =>
    if statusIsSuccess status then .Success else .Error status
  | .reqError true _ => .Timeout
  | .reqError false e => .NetworkError e

/-- Subprocess probe (`struct probes::Newman`). -/
structure Newman where
  config : Config
deriving DecidableEq, Repr

/-- `Newman::new` (the `Probe::new` impl): always succeeds. -/
def Newman.new (config : Config) : Except String Newman := .ok { config := config }

/-- Outcome of spawning and waiting on the newman subprocess: the spawn
failed, the wait failed, or the process completed with an exit code (`none`
when killed by a signal) and captured stdout. -/
inductive SpawnOutcome where
  | spawnFailed : SpawnOutcome
  | waitFailed : String → SpawnOutcome
  | completed : Option Nat → String → SpawnOutcome
deriving DecidableEq, Repr

/-- The command-line arguments `Newman::probe` passes to the newman
executable. -/
def Newman.args (n : Newman) : List String :=
  ["run", n.config.collection_path,
   "--timeout-request", natRepr (n.config.timeout_seconds * 1000 % 2 ^ 64)]
  ++ (match n.config.environment_path with
      | some env_path => ["-e", env_path]
      | none => [])
  ++ (match n.config.request_delay_milliseconds with
      | some delay => ["--delay-request", natRepr delay]
      | none => [])

/-- `Newman::probe`, with the subprocess outcome passed in.
`ExitStatus::success()` holds exactly for exit code 0. -/
def Newman.probe (_n : Newman) (out : SpawnOutcome) : ProbeResult :=
  match out with
  | .completed exitCode _stdout =>
    if exitCode = some 0 then .Success else .Error 1
  | .waitFailed _ => .Error 1
  | .spawnFailed => .Error 1

/-! ## URL decoding

Reference functions used to state the lossless-encoding and
query-parameter-presence properties: a percent-decoder, a UTF-8 decoder and a
query-string parser.  These follow the generic URL grammar, not the repository
code. -/

/-- Value of a hexadecimal digit character (uppercase or lowercase letters). -/
def hexVal (c : Char) : Option Nat :=
  let n := c.toNat
  if 48 ≤ n ∧ n ≤ 57 then some (n - 48)
  else if 65 ≤ n ∧ n ≤ 70 then some (n - 55)
  else if 97 ≤ n ∧ n ≤ 102 then some (n - 87)
  else none

/-- Percent-decoding of a character sequence into a byte sequence: a `%`
followed by two hex digits becomes one byte, any other character stands for
its own code point. -/
def percentDecode : List Char → Option (List Nat)
  | [] => some []
  | c :: rest =>
    if c = '%' then
      match rest with
      | hd :: ld :: rest2 =>
        match hexVal hd, hexVal ld, percentDecode rest2 with
        | some hv, some lv, some bs => some ((hv * 16 + lv) :: bs)
        | _, _, _ => none
      | _ => none
    else (percentDecode rest).map (c.toNat :: ·)

/-- Is a byte a UTF-8 continuation byte? -/
def isCont (b : Nat) : Bool := 0x80 ≤ b && b < 0xC0

/-- UTF-8 decoding automaton: `k` is the number of continuation bytes still
expected for the current code point and `acc` the value accumulated so far. -/
def utf8DecodeSM : Nat → Nat → List Nat → Option (List Char)
  | 0, _, [] => some []
  | _ + 1, _, [] => none
  | 0, _, b :: rest =>
    if b < 0x80 then (utf8DecodeSM 0 0 rest).map (Char.ofNat b :: ·)
    else if b < 0xC0 then none
    else if b < 0xE0 then utf8DecodeSM 1 (b - 0xC0) rest
    else if b < 0xF0 then utf8DecodeSM 2 (b - 0xE0) rest
    else if b < 0xF8 then utf8DecodeSM 3 (b - 0xF0) rest
    else none
  | k + 1, acc, b :: rest =>
    if isCont b then
      if k = 0 then
        (utf8DecodeSM 0 0 rest).map (Char.ofNat (acc * 64 + (b - 0x80)) :: ·)
      else utf8DecodeSM k (acc * 64 + (b - 0x80)) rest
    else none

/-- UTF-8 decoding of a byte sequence into characters. -/
def utf8Decode (bs : List Nat) : Option (List Char) := utf8DecodeSM 0 0 bs

/-- URL-decoding of a string: percent-decode to bytes, then UTF-8 decode. -/
def urldecode (s : String) : Option String :=
  (percentDecode s.data).bind (fun bs => (utf8Decode bs).map (fun cs => ⟨cs⟩))

/-! ## Query-string parsing -/

/-- The part of a URL after its first `?` (empty when there is none). -/
def queryOf : List Char → List Char
  | [] => []
  | c :: rest => if c = '?' then rest else queryOf rest

/-- Split a character list on a separator character (separator dropped). -/
def splitSep (sep : Char) : List Char → List (List Char)
  | [] => [[]]
  | c :: rest =>
    match splitSep sep rest with
    | [] => [[]]
    | grp :: grps => if c = sep then [] :: grp :: grps else (c :: grp) :: grps

/-- Split a character list at its first `=` into key and value. -/
def splitKV : List Char → List Char × List Char
  | [] => ([], [])
  | c :: rest =>
    if c = '=' then ([], rest)
    else
      let kv := splitKV rest
      (c :: kv.1, kv.2)

/-- Query parameters of a URL, in order: the key/value pairs of the part after
the first `?`, split on `&` and at the first `=` of each pair. -/
def queryParams (url : String) : List (String × String) :=
  (splitSep '&' (queryOf url.data)).map (fun p => (⟨(splitKV p).1⟩, ⟨(splitKV p).2⟩))

/-! ## Sample values used by witnesses and counterexamples -/

/-- A sample configuration (the field values of `Config::default`, with the
alerting tunables all set). -/
def sampleConfig : Config :=
  { cronitor_base_url := "https://cronitor.link"
    cronitor_api_key := some "key123"
    monitor_name := "test-monitor"
    server_url := "https://api.openai.com"
    endpoint_type := .OpenAIChatCompletion
    model_name := "gpt-4"
    env := "test"
    timeout_seconds := 10
    min_success_freq := some 60
    schedule := some "0 * * * *"
    realert_interval := some 9999
    consecutive_failures := some 1
    consecutive_missing := some 1
    monitor_group := some "grp"
    collection_path := "collection.json"
    environment_path := none
    request_delay_milliseconds := none }

/-- The sample configuration with the Newman probe kind selected. -/
def newmanConfig : Config := { sampleConfig with endpoint_type := .Newman }

/-- A sample Cronitor exporter instance. -/
def sampleCronitor : Cronitor :=
  { config := sampleConfig, host := "host1", series_id := "1700000000-42" }

/-! ## Basic character and string lemmas -/

/-- toNat of a character built from a valid code point. -/
theorem toNat_ofNat_valid {n : Nat} (h : n.isValidChar) : (Char.ofNat n).toNat = n := by
  simp [Char.ofNat, h, Char.toNat, Char.ofNatAux, UInt32.toNat, BitVec.toNat_ofNat]

/-- Code points below the surrogate range are valid. -/
theorem isValidChar_of_lt {n : Nat} (h : n < 55296) : n.isValidChar := Or.inl h

/-- Every character's code point is below 0x110000. -/
theorem char_toNat_lt (c : Char) : c.toNat < 1114112 := by
  have h := c.valid
  simp only [Char.toNat]
  rcases h with h | ⟨_, h2⟩
  · exact Nat.lt_trans h (by norm_num)
  · exact h2

/-- Two strings with equal character data are equal. -/
theorem string_eq_of_data {s t : String} (h : s.data = t.data) : s = t := by
  cases s; cases t; exact congrArg String.mk h

/-! ## Encoding round-trip lemmas -/

/-- hexVal inverts hexUpper on one hex digit. -/
theorem hexVal_hexUpper : ∀ n, n < 16 → hexVal (hexUpper n) = some n := by decide

/-- Every byte of a character's UTF-8 encoding is below 256. -/
theorem charUtf8_lt256 (c : Char) : ∀ b ∈ charUtf8 c, b < 256 := by
  intro b hb
  have hlt := char_toNat_lt c
  simp only [charUtf8] at hb
  split_ifs at hb <;> simp at hb <;> omega

/-- Every byte of a string's UTF-8 encoding is below 256. -/
theorem strBytes_lt256 (s : String) : ∀ b ∈ strBytes s, b < 256 := by
  intro b hb
  simp only [strBytes, List.mem_flatten, List.mem_map] at hb
  obtain ⟨l, ⟨ch, _, rfl⟩, hbl⟩ := hb
  exact charUtf8_lt256 ch b hbl

/-- percentDecode inverts the byte-wise percent-encoding. -/
theorem percentDecode_encBytes :
    ∀ bs : List Nat, (∀ b ∈ bs, b < 256) →
      percentDecode ((bs.map encByte).flatten) = some bs := by
  intro bs
  induction bs with
  | nil => intro _; rfl
  | cons b rest ih =>
    intro hall
    have hb : b < 256 := hall b (by simp)
    have hrest := ih (fun x hx => hall x (by simp [hx]))
    by_cases hs : safeByte b = true
    · have hval : (Char.ofNat b).toNat = b :=
        toNat_ofNat_valid (isValidChar_of_lt (by omega))
      have hne : ¬ (Char.ofNat b = '%') := by
        intro he
        have hb37 : b = 37 := by
          have := hval
          rw [he] at this
          simpa using this.symm
        rw [hb37] at hs
        simp [safeByte] at hs
      simp only [List.map_cons, List.flatten_cons, encByte, hs, if_true,
        List.cons_append, List.nil_append]
      rw [percentDecode.eq_def]
      simp only []
      rw [if_neg hne, hrest]
      simp [hval]
    · have h1 : hexVal (hexUpper (b / 16)) = some (b / 16) :=
        hexVal_hexUpper _ (by omega)
      have h2 : hexVal (hexUpper (b % 16)) = some (b % 16) :=
        hexVal_hexUpper _ (by omega)
      simp only [List.map_cons, List.flatten_cons, encByte, hs, if_false,
        Bool.false_eq_true, List.cons_append, List.nil_append]
      rw [percentDecode.eq_def]
      simp only []
      simp only [if_true]
      simp only [h1, h2, hrest]
      have hdm : b / 16 * 16 + b % 16 = b := by omega
      simp [hdm]

/-- utf8Decode inverts charUtf8, prepending the decoded character. -/
theorem utf8Decode_charUtf8 (c : Char) (rest : List Nat) :
    utf8Decode (charUtf8 c ++ rest) = (utf8Decode rest).map (c :: ·) := by
  have hlt := char_toNat_lt c
  show utf8DecodeSM 0 0 (charUtf8 c ++ rest) = (utf8DecodeSM 0 0 rest).map (c :: ·)
  rcases Nat.lt_or_ge c.toNat 0x80 with h1 | h1
  · have hc : charUtf8 c = [c.toNat] := by simp [charUtf8, h1]
    rw [hc, List.cons_append, List.nil_append, utf8DecodeSM, if_pos h1,
      Char.ofNat_toNat]
  · have h1' : ¬ c.toNat < 0x80 := by omega
    rcases Nat.lt_or_ge c.toNat 0x800 with h2 | h2
    · have hc : charUtf8 c = [0xC0 + c.toNat / 64, 0x80 + c.toNat % 64] := by
        simp [charUtf8, h1', h2]
      have hb1 : ¬ (0xC0 + c.toNat / 64 < 0x80) := by omega
      have hb2 : ¬ (0xC0 + c.toNat / 64 < 0xC0) := by omega
      have hb3 : 0xC0 + c.toNat / 64 < 0xE0 := by omega
      have hcont : isCont (0x80 + c.toNat % 64) = true := by
        simp [isCont]; omega
      have hX : Char.ofNat (c.toNat / 64 * 64 + c.toNat % 64) = c := by
        rw [show c.toNat / 64 * 64 + c.toNat % 64 = c.toNat by omega,
          Char.ofNat_toNat]
      rw [hc, List.cons_append, List.cons_append, List.nil_append, utf8DecodeSM,
        if_neg hb1, if_neg hb2, if_pos hb3,
        show 0xC0 + c.toNat / 64 - 0xC0 = c.toNat / 64 by omega,
        show utf8DecodeSM 1 (c.toNat / 64) ((0x80 + c.toNat % 64) :: rest) =
          if isCont (0x80 + c.toNat % 64) then
            (utf8DecodeSM 0 0 rest).map
              (Char.ofNat (c.toNat / 64 * 64 + (0x80 + c.toNat % 64 - 0x80)) :: ·)
          else none from rfl]
      simp [hcont, hX]
    · have h2' : ¬ c.toNat < 0x800 := by omega
      rcases Nat.lt_or_ge c.toNat 0x10000 with h3 | h3
      · have hc : charUtf8 c = [0xE0 + c.toNat / 4096,
            0x80 + c.toNat / 64 % 64, 0x80 + c.toNat % 64] := by
          simp [charUtf8, h1', h2', h3]
        have hb1 : ¬ (0xE0 + c.toNat / 4096 < 0x80) := by omega
        have hb2 : ¬ (0xE0 + c.toNat / 4096 < 0xC0) := by omega
        have hb3 : ¬ (0xE0 + c.toNat / 4096 < 0xE0) := by omega
        have hb4 : 0xE0 + c.toNat / 4096 < 0xF0 := by omega
        have hcont1 : isCont (0x80 + c.toNat / 64 % 64) = true := by
          simp [isCont]; omega
        have hcont2 : isCont (0x80 + c.toNat % 64) = true := by
          simp [isCont]; omega
        have hX : Char.ofNat ((c.toNat / 4096 * 64 + c.toNat / 64 % 64) * 64 +
            c.toNat % 64) = c := by
          rw [show (c.toNat / 4096 * 64 + c.toNat / 64 % 64) * 64 +
            c.toNat % 64 = c.toNat by omega, Char.ofNat_toNat]
        rw [hc, List.cons_append, List.cons_append, List.cons_append,
          List.nil_append, utf8DecodeSM,
          if_neg hb1, if_neg hb2, if_neg hb3, if_pos hb4,
          show 0xE0 + c.toNat / 4096 - 0xE0 = c.toNat / 4096 by omega,
          show utf8DecodeSM 2 (c.toNat / 4096)
              ((0x80 + c.toNat / 64 % 64) :: (0x80 + c.toNat % 64) :: rest) =
            if isCont (0x80 + c.toNat / 64 % 64) then
              utf8DecodeSM 1 (c.toNat / 4096 * 64 + (0x80 + c.toNat / 64 % 64 - 0x80))
                ((0x80 + c.toNat % 64) :: rest)
            else none from rfl,
          show utf8DecodeSM 1 (c.toNat / 4096 * 64 + (0x80 + c.toNat / 64 % 64 - 0x80))
              ((0x80 + c.toNat % 64) :: rest) =
            if isCont (0x80 + c.toNat % 64) then
              (utf8DecodeSM 0 0 rest).map
                (Char.ofNat ((c.toNat / 4096 * 64 + (0x80 + c.toNat / 64 % 64 - 0x80)) * 64 +
                  (0x80 + c.toNat % 64 - 0x80)) :: ·)
            else none from rfl]
        simp [hcont1, hcont2, hX]
      · have h3' : ¬ c.toNat < 0x10000 := by omega
        have hc : charUtf8 c = [0xF0 + c.toNat / 262144,
            0x80 + c.toNat / 4096 % 64, 0x80 + c.toNat / 64 % 64,
            0x80 + c.toNat % 64] := by
          simp [charUtf8, h1', h2', h3']
        have hb1 : ¬ (0xF0 + c.toNat / 262144 < 0x80) := by omega
        have hb2 : ¬ (0xF0 + c.toNat / 262144 < 0xC0) := by omega
        have hb3 : ¬ (0xF0 + c.toNat / 262144 < 0xE0) := by omega
        have hb4 : ¬ (0xF0 + c.toNat / 262144 < 0xF0) := by omega
        have hb5 : 0xF0 + c.toNat / 262144 < 0xF8 := by omega
        have hcont1 : isCont (0x80 + c.toNat / 4096 % 64) = true := by
          simp [isCont]; omega
        have hcont2 : isCont (0x80 + c.toNat / 64 % 64) = true := by
          simp [isCont]; omega
        have hcont3 : isCont (0x80 + c.toNat % 64) = true := by
          simp [isCont]; omega
        have hX : Char.ofNat (((c.toNat / 262144 * 64 + c.toNat / 4096 % 64) * 64 +
            c.toNat / 64 % 64) * 64 + c.toNat % 64) = c := by
          rw [show ((c.toNat / 262144 * 64 + c.toNat / 4096 % 64) * 64 +
            c.toNat / 64 % 64) * 64 + c.toNat % 64 = c.toNat by omega, Char.ofNat_toNat]
        rw [hc, List.cons_append, List.cons_append, List.cons_append,
          List.cons_append, List.nil_append, utf8DecodeSM,
          if_neg hb1, if_neg hb2, if_neg hb3, if_neg hb4, if_pos hb5,
          show 0xF0 + c.toNat / 262144 - 0xF0 = c.toNat / 262144 by omega,
          show utf8DecodeSM 3 (c.toNat / 262144)
              ((0x80 + c.toNat / 4096 % 64) :: (0x80 + c.toNat / 64 % 64) ::
                (0x80 + c.toNat % 64) :: rest) =
            if isCont (0x80 + c.toNat / 4096 % 64) then
              utf8DecodeSM 2 (c.toNat / 262144 * 64 + (0x80 + c.toNat / 4096 % 64 - 0x80))
                ((0x80 + c.toNat / 64 % 64) :: (0x80 + c.toNat % 64) :: rest)
            else none from rfl,
          show utf8DecodeSM 2 (c.toNat / 262144 * 64 + (0x80 + c.toNat / 4096 % 64 - 0x80))
              ((0x80 + c.toNat / 64 % 64) :: (0x80 + c.toNat % 64) :: rest) =
            if isCont (0x80 + c.toNat / 64 % 64) then
              utf8DecodeSM 1 ((c.toNat / 262144 * 64 + (0x80 + c.toNat / 4096 % 64 - 0x80)) * 64 +
                  (0x80 + c.toNat / 64 % 64 - 0x80))
                ((0x80 + c.toNat % 64) :: rest)
            else none from rfl,
          show utf8DecodeSM 1 ((c.toNat / 262144 * 64 + (0x80 + c.toNat / 4096 % 64 - 0x80)) * 64 +
                (0x80 + c.toNat / 64 % 64 - 0x80))
              ((0x80 + c.toNat % 64) :: rest) =
            if isCont (0x80 + c.toNat % 64) then
              (utf8DecodeSM 0 0 rest).map
                (Char.ofNat (((c.toNat / 262144 * 64 + (0x80 + c.toNat / 4096 % 64 - 0x80)) * 64 +
                  (0x80 + c.toNat / 64 % 64 - 0x80)) * 64 +
                  (0x80 + c.toNat % 64 - 0x80)) :: ·)
            else none from rfl]
        simp [hcont1, hcont2, hcont3, hX]

/-- utf8Decode inverts the UTF-8 encoding of a character list. -/
theorem utf8Decode_flatten (cs : List Char) :
    utf8Decode ((cs.map charUtf8).flatten) = some cs := by
  induction cs with
  | nil => rfl
  | cons ch rest ih => simp [utf8Decode_charUtf8, ih]

/-! ## Query-string parsing lemmas -/

/-- A string rebuilt from its character data is itself. -/
theorem string_mk_data (s : String) : String.mk s.data = s := by cases s; rfl

/-- queryOf drops everything up to and including the first `?`. -/
theorem queryOf_append (a b : List Char) (h : ∀ ch ∈ a, ch ≠ '?') :
    queryOf (a ++ '?' :: b) = b := by
  induction a with
  | nil => simp [queryOf]
  | cons c rest ih =>
    have hc : c ≠ '?' := h c (by simp)
    simp only [List.cons_append, queryOf, hc, if_false]
    exact ih (fun ch hch => h ch (by simp [hch]))

/-- splitSep never returns an empty group list. -/
theorem splitSep_ne_nil (sep : Char) (l : List Char) : splitSep sep l ≠ [] := by
  cases l with
  | nil => simp [splitSep]
  | cons c rest =>
    simp only [splitSep]
    rcases h : splitSep sep rest with _ | ⟨grp, grps⟩
    · simp
    · by_cases hc : c = sep <;> simp [hc]

/-- splitSep on separator-free input yields the single group. -/
theorem splitSep_no_sep (sep : Char) (a : List Char) (h : ∀ ch ∈ a, ch ≠ sep) :
    splitSep sep a = [a] := by
  induction a with
  | nil => rfl
  | cons c rest ih =>
    have hc : c ≠ sep := h c (by simp)
    have hr := ih (fun ch hch => h ch (by simp [hch]))
    simp only [splitSep, hr, hc, if_false]

/-- splitSep splits off a separator-free prefix at the first separator. -/
theorem splitSep_append (sep : Char) (a b : List Char)
    (h : ∀ ch ∈ a, ch ≠ sep) :
    splitSep sep (a ++ sep :: b) = a :: splitSep sep b := by
  induction a with
  | nil =>
    simp only [List.nil_append, splitSep]
    rcases hb : splitSep sep b with _ | ⟨grp, grps⟩
    · exact absurd hb (splitSep_ne_nil sep b)
    · simp
  | cons c rest ih =>
    have hc : c ≠ sep := h c (by simp)
    have hr := ih (fun ch hch => h ch (by simp [hch]))
    simp only [List.cons_append, splitSep, List.append_eq, hr, hc, if_false]

/-- splitKV splits a pair at its first `=`. -/
theorem splitKV_append (k v : List Char) (h : ∀ ch ∈ k, ch ≠ '=') :
    splitKV (k ++ '=' :: v) = (k, v) := by
  induction k with
  | nil => simp [splitKV]
  | cons c rest ih =>
    have hc : c ≠ '=' := h c (by simp)
    have hr := ih (fun ch hch => h ch (by simp [hch]))
    simp only [List.cons_append, splitKV, List.append_eq, hr, hc, if_false]

/-- Every character of a decimal representation is a digit. -/
theorem natDigits_digit (n : Nat) : ∀ ch ∈ natDigits n, 48 ≤ ch.toNat ∧ ch.toNat ≤ 57 := by
  induction n using Nat.strong_induction_on with
  | _ n ih =>
    intro ch hch
    rw [natDigits] at hch
    split_ifs at hch with h
    · simp only [List.mem_singleton] at hch
      subst hch
      have hv : (Char.ofNat (48 + n)).toNat = 48 + n :=
        toNat_ofNat_valid (isValidChar_of_lt (by omega))
      simp only [digitChar, hv]
      omega
    · rcases List.mem_append.mp hch with h1 | h1
      · exact ih (n / 10) (Nat.div_lt_self (by omega) (by omega)) ch h1
      · simp only [List.mem_singleton] at h1
        subst h1
        have hv : (Char.ofNat (48 + n % 10)).toNat = 48 + n % 10 :=
          toNat_ofNat_valid (isValidChar_of_lt (by omega))
        simp only [digitChar, hv]
        omega

/-- A decimal representation never contains an ampersand. -/
theorem natRepr_no_amp (n : Nat) : ∀ ch ∈ (natRepr n).data, ch ≠ '&' := by
  intro ch hch heq
  have h := natDigits_digit n ch hch
  rw [heq] at h
  exact absurd h (by decide)

/-- A ping state's string form never contains an ampersand. -/
theorem as_str_no_amp (s : PingState) : ∀ ch ∈ s.as_str.data, ch ≠ '&' := by
  cases s <;> decide

/-- An uppercase hex digit is never an ampersand. -/
theorem hexUpper_ne_amp : ∀ d, d < 16 → hexUpper d ≠ '&' := by decide

/-- A percent-encoded string never contains an ampersand. -/
theorem urlencode_no_amp (m : String) : ∀ ch ∈ (urlencode m).data, ch ≠ '&' := by
  intro ch hch
  have hch' : ch ∈ ((strBytes m).map encByte).flatten := hch
  simp only [List.mem_flatten, List.mem_map] at hch'
  obtain ⟨l, ⟨b, hb, rfl⟩, hchl⟩ := hch'
  have hb256 : b < 256 := strBytes_lt256 m b hb
  by_cases hs : safeByte b = true
  · simp only [encByte, hs, if_true, List.mem_singleton] at hchl
    subst hchl
    intro he
    have hamp : b = 38 := by
      have h1 : (Char.ofNat b).toNat = b :=
        toNat_ofNat_valid (isValidChar_of_lt (by omega))
      rw [he] at h1
      simpa using h1.symm
    rw [hamp] at hs
    simp [safeByte] at hs
  · simp only [encByte, hs, Bool.false_eq_true, if_false, List.mem_cons,
      List.mem_singleton, List.not_mem_nil, or_false] at hchl
    rcases hchl with rfl | rfl | rfl
    · decide
    · exact hexUpper_ne_amp _ (by omega)
    · exact hexUpper_ne_amp _ (by omega)

/-! ## Claim theorems -/

/-- C1: for every ProbeResult returned by the bound probe, `Monitor::run`
first emits `ping(Run, 0, none)`, then exactly one terminal ping, and returns
the exit code per the fixed mapping: Success gives (Complete, 0, none, exit
0); Error(code) gives (Fail, code, none, exit 1); Timeout gives (Fail, 124,
"Request timeout", exit 124); NetworkError(desc) gives (Fail, 1,
"Network error: desc", exit 1). -/
theorem monitor_run_lifecycle (r : ProbeResult) :
    Monitor.run r =
      ([⟨.Run, 0, none⟩,
        match r with
        | .Success => ⟨.Complete, 0, none⟩
        | .Error status_code => ⟨.Fail, status_code, none⟩
        | .Timeout => ⟨.Fail, 124, some "Request timeout"⟩
        | .NetworkError e => ⟨.Fail, 1, some ("Network error: " ++ e)⟩],
       match r with
       | .Success => 0
       | .Error _ => 1
       | .Timeout => 124
       | .NetworkError _ => 1) := by
  cases r <;> rfl

/-- C2: for every ProbeResult and all outcomes of the exporter's notification
requests (2xx, non-2xx, transport failure, for the run ping, the upsert and
the terminal ping alike), the exit code of `Monitor::run` is unchanged and
equals the probe classification's exit code; `Cronitor::ping` is a total
function into calls and logs, so no notification failure can propagate. -/
theorem cronitor_exit_code_independent (c : Cronitor) (r : ProbeResult)
    (o1 o2 o3 o1' o2' o3' : HttpOutcome) :
    (Monitor.runCronitor c r o1 o2 o3).2.2 = (Monitor.runCronitor c r o1' o2' o3').2.2 ∧
    (Monitor.runCronitor c r o1 o2 o3).2.2 = (Monitor.run r).2 := by
  cases r <;> exact ⟨rfl, rfl⟩

/-- C6: `Cronitor::ping` issues the GET ping first, and issues the
authenticated monitor-upsert PUT (with the derived payload) after it exactly
when the state is Run and an API key is configured; the calls issued do not
depend on either request's outcome, so the upsert happens whether or not the
run ping succeeded. -/
theorem ping_upsert_iff (c : Cronitor) (state : PingState) (status_code : Nat)
    (message : Option String) (po uo po' uo' : HttpOutcome) :
    (c.ping state status_code message po uo).1 = (c.ping state status_code message po' uo').1 ∧
    (c.ping state status_code message po uo).1.head? =
      some (.get (c.build_ping_url state status_code message)) ∧
    ((c.ping state status_code message po uo).1.drop 1 =
      match state, c.config.cronitor_api_key with
      | .Run, some api_key =>
        [.put "https://cronitor.io/api/monitors" api_key c.get_monitor_update_payload]
      | _, _ => []) := by
  cases state <;> rcases hk : c.config.cronitor_api_key with _ | k <;>
    simp [Cronitor.ping, hk]

/-- C8 counterexample: `OpenAI::new` called with a configuration whose probe
kind is Newman succeeds instead of returning a configuration error. -/
theorem openai_new_mismatch_counterexample :
    OpenAI.new true newmanConfig = .ok { config := newmanConfig } := rfl

/-- C8 amended: the probe constructors never check the probe kind —
`OpenAI::new` succeeds for any endpoint type whenever the transport builds,
and `Newman::new` always succeeds; a mismatched kind surfaces only later,
when `build_endpoint_url` or `build_payload` panics on a Newman endpoint
type. -/
theorem probe_constructors_no_kind_check (cfg : Config) :
    OpenAI.new true cfg = .ok { config := cfg } ∧
    Newman.new cfg = .ok { config := cfg } ∧
    (OpenAI.build_endpoint_url { config := cfg } = none ↔ cfg.endpoint_type = .Newman) ∧
    (OpenAI.build_payload { config := cfg } = none ↔ cfg.endpoint_type = .Newman) := by
  refine ⟨rfl, rfl, ?_, ?_⟩ <;>
    cases h : cfg.endpoint_type <;>
      simp [OpenAI.build_endpoint_url, OpenAI.build_payload, h]

/-- C9: `Newman::probe` returns Success exactly when the spawned process
exits with code zero, returns Error(1) for any other completion, for a wait
failure and for a spawn failure, and never returns Timeout or NetworkError. -/
theorem newman_probe_classification (n : Newman) (out : SpawnOutcome) :
    Newman.probe n out =
      (match out with
       | .completed (some 0) _ => .Success
       | _ => .Error 1) ∧
    Newman.probe n out ≠ .Timeout ∧
    (∀ desc, Newman.probe n out ≠ .NetworkError desc) := by
  rcases out with _ | d | ⟨_ | k, so⟩
  · exact ⟨rfl, by simp [Newman.probe], by simp [Newman.probe]⟩
  · exact ⟨rfl, by simp [Newman.probe], by simp [Newman.probe]⟩
  · exact ⟨rfl, by simp [Newman.probe], by simp [Newman.probe]⟩
  · rcases k with _ | k
    · exact ⟨rfl, by simp [Newman.probe], by simp [Newman.probe]⟩
    · exact ⟨rfl, by simp [Newman.probe], by simp [Newman.probe]⟩

/-- C10: for every configuration, the monitor-upsert payload is a JSON object
with a "monitors" array holding exactly one monitor document, and that
document always carries "type" = "job" and "key" = the configured monitor
name. -/
theorem payload_shape (c : Cronitor) :
    ∃ fields, c.get_monitor_update_payload = .obj [("monitors", .arr [.obj fields])] ∧
      fields.lookup "type" = some (.str "job") ∧
      fields.lookup "key" = some (.str c.config.monitor_name) := by
  exact ⟨_, rfl, rfl, rfl⟩

/-- C7: the series identifier is built exactly once at exporter construction
from the timestamp and process id, the structure is immutable afterwards, and
every ping URL the instance builds — for any state, status code and message —
carries that same series value between its series and status_code
parameters. -/
theorem series_id_consistency (cfg : Config) (ts : Int) (pid : Nat)
    (hostRes : Option String) :
    ∃ c, Cronitor.new true cfg ts pid hostRes = .ok c ∧
      c.series_id = intRepr ts ++ "-" ++ natRepr pid ∧
      ∀ state status_code message, ∃ before after,
        c.build_ping_url state status_code message =
          before ++ ("&series=" ++ c.series_id ++ "&status_code=") ++ after := by
  refine ⟨_, rfl, rfl, ?_⟩
  intro state status_code message
  cases message with
  | none =>
    refine ⟨cfg.cronitor_base_url ++ "/" ++ cfg.monitor_name ++ "?state=" ++ state.as_str,
      natRepr status_code ++ "&env=" ++ cfg.env ++ "&host=" ++ hostRes.getD "", ?_⟩
    simp [Cronitor.build_ping_url, String.append_assoc]
  | some m =>
    refine ⟨cfg.cronitor_base_url ++ "/" ++ cfg.monitor_name ++ "?state=" ++ state.as_str,
      natRepr status_code ++ "&env=" ++ cfg.env ++ "&host=" ++ hostRes.getD "" ++
        "&message=" ++ urlencode m, ?_⟩
    simp [Cronitor.build_ping_url, String.append_assoc]

/-- C5: the derived monitor-definition document contains failure_tolerance,
schedule, realert_interval and group exactly when the corresponding tunable is
set, contains schedule_tolerance exactly when both consecutive_missing and
schedule are set, and its assertions list always starts with the duration
assertion bounding round-trip time by twice the configured timeout and
additionally holds the job-completes assertion exactly when min_success_freq
is set. -/
theorem payload_fields_iff (c : Cronitor)
    (h : c.config.timeout_seconds * 2 < 2 ^ 64) :
    ∃ fields, c.get_monitor_update_payload = .obj [("monitors", .arr [.obj fields])] ∧
      ((fields.lookup "failure_tolerance").isSome ↔ c.config.consecutive_failures.isSome) ∧
      ((fields.lookup "schedule").isSome ↔ c.config.schedule.isSome) ∧
      ((fields.lookup "realert_interval").isSome ↔ c.config.realert_interval.isSome) ∧
      ((fields.lookup "schedule_tolerance").isSome ↔
        (c.config.consecutive_missing.isSome ∧ c.config.schedule.isSome)) ∧
      ((fields.lookup "group").isSome ↔ c.config.monitor_group.isSome) ∧
      fields.lookup "assertions" = some (.arr (Json.str
          ("metric.duration < " ++ natRepr (c.config.timeout_seconds * 2) ++ "s") ::
        (match c.config.min_success_freq with
         | some min_success_freq =>
           [Json.str ("job.completes < " ++ natRepr min_success_freq ++ " minute")]
         | none => []))) := by
  refine ⟨_, rfl, ?_⟩
  have hmod : c.config.timeout_seconds * 2 % 18446744073709551616 =
      c.config.timeout_seconds * 2 :=
    Nat.mod_eq_of_lt (by simpa using h)
  rcases hcf : c.config.consecutive_failures with _ | cf <;>
  rcases hs : c.config.schedule with _ | s <;>
  rcases hri : c.config.realert_interval with _ | ri <;>
  rcases hcm : c.config.consecutive_missing with _ | cm <;>
  rcases hg : c.config.monitor_group with _ | g <;>
  rcases hmf : c.config.min_success_freq with _ | mf <;>
  simp [Cronitor.get_monitor_update_payload, hcf, hs, hri, hcm, hg, hmf,
    List.lookup, hmod]

/-- C5 witness: the field-presence properties evaluated on the sample
exporter instance. -/
theorem payload_fields_iff_witness :
    sampleCronitor.config.timeout_seconds * 2 < 2 ^ 64 ∧
    (∃ fields, sampleCronitor.get_monitor_update_payload =
        .obj [("monitors", .arr [.obj fields])] ∧
      ((fields.lookup "failure_tolerance").isSome ↔
        sampleCronitor.config.consecutive_failures.isSome) ∧
      ((fields.lookup "schedule").isSome ↔ sampleCronitor.config.schedule.isSome) ∧
      ((fields.lookup "realert_interval").isSome ↔
        sampleCronitor.config.realert_interval.isSome) ∧
      ((fields.lookup "schedule_tolerance").isSome ↔
        (sampleCronitor.config.consecutive_missing.isSome ∧
          sampleCronitor.config.schedule.isSome)) ∧
      ((fields.lookup "group").isSome ↔ sampleCronitor.config.monitor_group.isSome) ∧
      fields.lookup "assertions" = some (.arr (Json.str
          ("metric.duration < " ++
            natRepr (sampleCronitor.config.timeout_seconds * 2) ++ "s") ::
        (match sampleCronitor.config.min_success_freq with
         | some min_success_freq =>
           [Json.str ("job.completes < " ++ natRepr min_success_freq ++ " minute")]
         | none => [])))) :=
  ⟨by decide, payload_fields_iff sampleCronitor (by decide)⟩

/-- C4: the percent-encoding used for the message parameter is lossless — for
every message string, URL-decoding (percent-decoding followed by UTF-8
decoding) the encoded message recovers exactly the original string. -/
theorem urlencode_lossless (msg : String) :
    urldecode (urlencode msg) = some msg := by
  obtain ⟨cs⟩ := msg
  show (percentDecode (((strBytes ⟨cs⟩).map encByte).flatten)).bind _ = _
  rw [percentDecode_encBytes _ (strBytes_lt256 ⟨cs⟩)]
  show (utf8Decode ((cs.map charUtf8).flatten)).map _ = _
  rw [utf8Decode_flatten]
  rfl

/-- C3: for every state, status code and optional message, the ping URL's
query string parses to exactly the parameters state, series, status_code, env
and host — always present, in that order, with their configured values — plus
a message parameter if and only if a message was supplied, whose value is the
URL-encoding of the supplied message.  The hypotheses require the configured
components not to contain the URL metacharacters that would themselves be
parsed as delimiters. -/
theorem build_ping_url_query_params (c : Cronitor) (state : PingState)
    (status_code : Nat) (message : Option String)
    (hbase : ∀ ch ∈ c.config.cronitor_base_url.data, ch ≠ '?')
    (hname : ∀ ch ∈ c.config.monitor_name.data, ch ≠ '?')
    (hsid : ∀ ch ∈ c.series_id.data, ch ≠ '&')
    (henv : ∀ ch ∈ c.config.env.data, ch ≠ '&')
    (hhost : ∀ ch ∈ c.host.data, ch ≠ '&') :
    queryParams (c.build_ping_url state status_code message) =
      [("state", state.as_str), ("series", c.series_id),
       ("status_code", natRepr status_code), ("env", c.config.env),
       ("host", c.host)] ++
      (match message with
       | some m => [("message", urlencode m)]
       | none => []) := by
  have hA : ∀ ch ∈ c.config.cronitor_base_url.data ++
      '/' :: c.config.monitor_name.data, ch ≠ '?' := by
    intro ch hch
    rcases List.mem_append.mp hch with h | h
    · exact hbase ch h
    · rcases List.mem_cons.mp h with rfl | h
      · decide
      · exact hname ch h
  have seg : ∀ (K V : List Char), (∀ ch ∈ K, ch ≠ '&') → (∀ ch ∈ V, ch ≠ '&') →
      ∀ ch ∈ K ++ '=' :: V, ch ≠ '&' := by
    intro K V hK hV ch hch
    rcases List.mem_append.mp hch with h | h
    · exact hK ch h
    · rcases List.mem_cons.mp h with rfl | h
      · decide
      · exact hV ch h
  have hS1 := seg ("state" : String).data state.as_str.data (by decide)
    (as_str_no_amp state)
  have hS2 := seg ("series" : String).data c.series_id.data (by decide) hsid
  have hS3 := seg ("status_code" : String).data (natRepr status_code).data
    (by decide) (natRepr_no_amp status_code)
  have hS4 := seg ("env" : String).data c.config.env.data (by decide) henv
  have hS5 := seg ("host" : String).data c.host.data (by decide) hhost
  have b1 : ("?state=" : String).data = '?' :: ("state" : String).data ++ ['='] := rfl
  have b2 : ("&series=" : String).data = '&' :: ("series" : String).data ++ ['='] := rfl
  have b3 : ("&status_code=" : String).data =
    '&' :: ("status_code" : String).data ++ ['='] := rfl
  have b4 : ("&env=" : String).data = '&' :: ("env" : String).data ++ ['='] := rfl
  have b5 : ("&host=" : String).data = '&' :: ("host" : String).data ++ ['='] := rfl
  have b6 : ("&message=" : String).data = '&' :: ("message" : String).data ++ ['='] := rfl
  have b0 : ("/" : String).data = ['/'] := rfl
  cases message with
  | none =>
    have hdata : (c.build_ping_url state status_code none).data =
        (c.config.cronitor_base_url.data ++ '/' :: c.config.monitor_name.data) ++ '?' ::
        ((("state" : String).data ++ '=' :: state.as_str.data) ++ '&' ::
         ((("series" : String).data ++ '=' :: c.series_id.data) ++ '&' ::
          ((("status_code" : String).data ++ '=' :: (natRepr status_code).data) ++ '&' ::
           ((("env" : String).data ++ '=' :: c.config.env.data) ++ '&' ::
            (("host" : String).data ++ '=' :: c.host.data))))) := by
      simp [Cronitor.build_ping_url, String.data_append, b0, b1, b2, b3, b4, b5]
    simp only [queryParams, hdata, queryOf_append _ _ hA]
    rw [splitSep_append '&' _ _ hS1, splitSep_append '&' _ _ hS2,
      splitSep_append '&' _ _ hS3, splitSep_append '&' _ _ hS4,
      splitSep_no_sep '&' _ hS5]
    simp only [List.map_cons, List.map_nil,
      splitKV_append _ _ (by decide : ∀ ch ∈ ("state" : String).data, ch ≠ '='),
      splitKV_append _ _ (by decide : ∀ ch ∈ ("series" : String).data, ch ≠ '='),
      splitKV_append _ _ (by decide : ∀ ch ∈ ("status_code" : String).data, ch ≠ '='),
      splitKV_append _ _ (by decide : ∀ ch ∈ ("env" : String).data, ch ≠ '='),
      splitKV_append _ _ (by decide : ∀ ch ∈ ("host" : String).data, ch ≠ '='),
      string_mk_data]
    rfl
  | some m =>
    have hS6 := seg ("message" : String).data (urlencode m).data (by decide)
      (urlencode_no_amp m)
    have hdata : (c.build_ping_url state status_code (some m)).data =
        (c.config.cronitor_base_url.data ++ '/' :: c.config.monitor_name.data) ++ '?' ::
        ((("state" : String).data ++ '=' :: state.as_str.data) ++ '&' ::
         ((("series" : String).data ++ '=' :: c.series_id.data) ++ '&' ::
          ((("status_code" : String).data ++ '=' :: (natRepr status_code).data) ++ '&' ::
           ((("env" : String).data ++ '=' :: c.config.env.data) ++ '&' ::
            ((("host" : String).data ++ '=' :: c.host.data) ++ '&' ::
             (("message" : String).data ++ '=' :: (urlencode m).data)))))) := by
      simp [Cronitor.build_ping_url, String.data_append, b0, b1, b2, b3, b4, b5, b6]
    simp only [queryParams, hdata, queryOf_append _ _ hA]
    rw [splitSep_append '&' _ _ hS1, splitSep_append '&' _ _ hS2,
      splitSep_append '&' _ _ hS3, splitSep_append '&' _ _ hS4,
      splitSep_append '&' _ _ hS5, splitSep_no_sep '&' _ hS6]
    simp only [List.map_cons, List.map_nil,
      splitKV_append _ _ (by decide : ∀ ch ∈ ("state" : String).data, ch ≠ '='),
      splitKV_append _ _ (by decide : ∀ ch ∈ ("series" : String).data, ch ≠ '='),
      splitKV_append _ _ (by decide : ∀ ch ∈ ("status_code" : String).data, ch ≠ '='),
      splitKV_append _ _ (by decide : ∀ ch ∈ ("env" : String).data, ch ≠ '='),
      splitKV_append _ _ (by decide : ∀ ch ∈ ("host" : String).data, ch ≠ '='),
      splitKV_append _ _ (by decide : ∀ ch ∈ ("message" : String).data, ch ≠ '='),
      string_mk_data]
    rfl

/-- C3 witness: the query-parameter decomposition evaluated on the sample
exporter instance with a concrete failing ping carrying a message. -/
theorem build_ping_url_query_params_witness :
    (∀ ch ∈ sampleCronitor.config.cronitor_base_url.data, ch ≠ '?') ∧
    (∀ ch ∈ sampleCronitor.config.monitor_name.data, ch ≠ '?') ∧
    (∀ ch ∈ sampleCronitor.series_id.data, ch ≠ '&') ∧
    (∀ ch ∈ sampleCronitor.config.env.data, ch ≠ '&') ∧
    (∀ ch ∈ sampleCronitor.host.data, ch ≠ '&') ∧
    queryParams (sampleCronitor.build_ping_url .Fail 500 (some "Test error")) =
      [("state", PingState.Fail.as_str), ("series", sampleCronitor.series_id),
       ("status_code", natRepr 500), ("env", sampleCronitor.config.env),
       ("host", sampleCronitor.host)] ++ [("message", urlencode "Test error")] :=
  ⟨by decide, by decide, by decide, by decide, by decide,
   build_ping_url_query_params sampleCronitor .Fail 500 (some "Test error")
     (by decide) (by decide) (by decide) (by decide) (by decide)⟩

end AiVitals
